import Mathlib

/-!
Verification development for the m_pesalytics transaction classification engine.

This file gives a shallow embedding of the core of the repository:

* `split_details` from `load_wrangle.py` (the detail parser), including a
  faithful model of the backtracking behaviour of the regular expression
  `(.*?)(?<!\S)(?: *)-(?: *)\s(?=\S)(.*)` used with `re.search`;
* the `TransactionCategorizer` class from `transaction_categorizer.py`:
  the entity normalizers (`process_masked_phone`,
  `process_business_and_account`, `extract_paybill_details`), the ordered
  19-rule `categorize_transaction` match, the bucket-accumulating
  `categorize_transactions` pass (instance state passed explicitly),
  `categorize_transactions_efficiently` and `get_category_summary`.

Modelling conventions:
* Python strings are Lean `String`s; the upstream `str(...)` conversion of
  the row fields (which renders a missing value as the literal `"nan"`) is
  assumed already applied, so every field of the input record is a string.
* Python string operations (`lower`, `title`, `strip`, slicing, `in`,
  `split(" ", 1)`, `isnumeric`) are modelled by executable list-of-chars
  functions; `isnumeric` is modelled for ASCII digits (all inputs in the
  statements are ASCII).
* A Python exception is modelled by `Option`: `categorize_transaction`
  returns `none` exactly when the source would raise (the only raise site
  is the `parts[1]` IndexError in `process_masked_phone`).
* Timestamps are modelled as `Nat`, money amounts as `Rat`.
* Regular-expression models assume newline-free input (upstream cleaning
  collapses all whitespace runs to single spaces), except the
  `split_details` scanner which models the `.`-does-not-match-newline
  behaviour explicitly.
-/

/-- Model of Python `str.lower()` (ASCII). -/
def pyLower (s : String) : String := String.mk (s.toList.map Char.toLower)

/-- Model of Python slicing `s[0:n]`. -/
def pyTake (n : Nat) (s : String) : String := String.mk (s.toList.take n)

/-- Model of Python `str.strip()`: drop whitespace from both ends. -/
def pyStrip (s : String) : String :=
  String.mk (((s.toList.dropWhile Char.isWhitespace).reverse.dropWhile Char.isWhitespace).reverse)

/-- Title-casing one character stream: a cased character starting a run of
alphabetic characters is uppercased, later characters of the run are
lowercased; non-alphabetic characters pass through and end the run.
Models Python `str.title()`. -/
def titleChars : Bool → List Char → List Char
  | _, [] => []
  | prevAlpha, c :: cs =>
    (if c.isAlpha then (if prevAlpha then c.toLower else c.toUpper) else c) ::
      titleChars c.isAlpha cs

/-- Model of Python `str.title()`. -/
def pyTitle (s : String) : String := String.mk (titleChars false s.toList)

/-- Is `pat` a contiguous sublist of the second list?  Backing for the
Python substring test `pat in s`. -/
def isSubstrList : List Char → List Char → Bool
  | pat, [] => pat.isEmpty
  | pat, l@(_ :: t) => pat.isPrefixOf l || isSubstrList pat t

/-- Model of the Python substring test `needle in hay`. -/
def pyIn (needle hay : String) : Bool := isSubstrList needle.toList hay.toList

/-- Model of Python `str.isnumeric()` restricted to ASCII input: nonempty
and all characters are digits. -/
def pyIsNumericStr (s : String) : Bool := !s.toList.isEmpty && s.toList.all Char.isDigit

/-- Split a character list at the first `' '`, the space itself removed;
`none` when there is no space.  Models `s.split(" ", 1)` returning a
two-element list (`none` = the one-element result). -/
def splitFirstSpace : List Char → Option (List Char × List Char)
  | [] => none
  | c :: cs =>
    if c = ' ' then some ([], cs)
    else (splitFirstSpace cs).map (fun p => (c :: p.1, p.2))

/-! ## `load_wrangle.split_details`

The source searches `(.*?)(?<!\S)(?: *)-(?: *)\s(?=\S)(.*)` in the details
text.  The model scans left to right for the first position where the
lookbehind boundary holds and the separator piece `(?: *)-(?: *)\s(?=\S)`
matches, mirroring the engine's lazy group-1/backtracking semantics. -/

/-- Model of `(?: *)-`: skip literal spaces, then require a hyphen; returns
the rest after the hyphen. -/
def matchHyphen : List Char → Option (List Char)
  | ' ' :: rest => matchHyphen rest
  | '-' :: rest => some rest
  | _ => none

/-- Model of `(?: *)\s(?=\S)` with the engine's greedy-then-backtrack
order: prefer consuming a `' '` into the space run; on failure use the
current whitespace character as the `\s` provided a non-whitespace
character follows.  Returns the rest after the matched `\s`. -/
def afterHyphen : List Char → Option (List Char)
  | [] => none
  | c :: rest =>
    if c = ' ' then
      match afterHyphen rest with
      | some r => some r
      | none =>
        match rest with
        | d :: _ => if d.isWhitespace then none else some rest
        | [] => none
    else if c.isWhitespace then
      match rest with
      | d :: _ => if d.isWhitespace then none else some rest
      | [] => none
    else none

/-- Try to match the whole separator piece at the current position; on
success returns group 2 (the rest of the line: `(.*)` stops at a
newline). -/
def trySep (cs : List Char) : Option (List Char) :=
  match matchHyphen cs with
  | some r => (afterHyphen r).map (List.takeWhile (fun ch => ch ≠ '\n'))
  | none => none

/-- Left-to-right scan for the first separator.  `seg` accumulates (in
reverse) the group-1 characters of the current match start; `bnd` says
whether the lookbehind `(?<!\S)` holds at the current position.  A newline
resets the match start (group 1 cannot cross `\n` under `re.search`). -/
def scanDetails : List Char → Bool → List Char → Option (List Char × List Char)
  | _, _, [] => none
  | seg, bnd, c :: cs =>
    match (if bnd then trySep (c :: cs) else none) with
    | some g2 => some (seg.reverse, g2)
    | none =>
      if c = '\n' then scanDetails [] true cs
      else scanDetails (c :: seg) c.isWhitespace cs

/-- `split_details` from `load_wrangle.py`: on a match return the two
groups stripped, otherwise return the input twice. -/
def split_details (s : String) : String × String :=
  match scanDetails [] true s.toList with
  | some (g1, g2) => (pyStrip (String.mk g1), pyStrip (String.mk g2))
  | none => (s, s)

/-- A separator match is possible at index `i` of `cs` given that position
0 carries lookbehind status `bnd`: the lookbehind boundary holds at `i`
and the separator piece matches the suffix from `i`. -/
def sepFrom (bnd : Bool) (cs : List Char) (i : Nat) : Bool :=
  (if i == 0 then bnd else ((cs.get? (i - 1)).map Char.isWhitespace).getD false) &&
    (trySep (cs.drop i)).isSome

/-- Modelled from the spec: the spec's `split_details` description says the
LAST occurrence of the standalone-hyphen separator is located; this
definition follows the spec's words (same separator shape, last match,
both sides trimmed, `(details, details)` fallback) for comparison with the
source's behaviour. -/
def splitDetailsLastSpec (s : String) : String × String :=
  match ((List.range (s.toList.length + 1)).filter (fun i => sepFrom true s.toList i)).getLast? with
  | some i =>
      (pyStrip (String.mk (s.toList.take i)),
       pyStrip (String.mk ((trySep (s.toList.drop i)).getD [])))
  | none => (s, s)

/-! ## Data model of `transaction_categorizer.py` -/

/-- The dynamically-typed `processed_entity` slot: every rule stores a
string except the fallback rule, which stores the whole
`process_masked_phone` tuple when the entity starts with two digits. -/
inductive PEnt where
  | str (v : String)
  | pair (a b : String)
deriving DecidableEq

/-- The dynamically-typed `is_charge` slot: a boolean everywhere except
the NoDetails rule, which stores the empty string. -/
inductive Charge where
  | pybool (b : Bool)
  | pystr (s : String)
deriving DecidableEq

/-- The dynamically-typed `subcategory` slot: `None` initially, a string
in most rules, and the empty tuple `()` in the Reversals rule. -/
inductive PySub where
  | pynone
  | str (s : String)
  | tuple
deriving DecidableEq

/-- An input row (after upstream cleaning and `str(...)` conversion of the
text fields; a missing value has become the literal string `"nan"`). -/
structure Tx where
  receipt_no : String
  date_time : Nat
  details : String
  paid_in : Rat
  withdrawn : Rat
  entity : String
  type_class : String
  type_desc : String
  month : String
  week : String
deriving DecidableEq

/-- The `transaction_data` dictionary built by `categorize_transaction`.
`account_no` is `none` when the key was never added. -/
structure TxData where
  receipt_no : String
  date_time : Nat
  details : String
  paid_in : Rat
  withdrawn : Rat
  entity : String
  type_class : String
  type_desc : String
  month : String
  week : String
  processed_entity : PEnt
  is_charge : Charge
  category : Option String
  subcategory : PySub
  account_no : Option String
deriving DecidableEq

/-- `process_masked_phone`: `pd.isna` is false on a string, so only the
empty string takes the pass-through branch; the pattern `\*+` finds a
match iff some `'*'` occurs; `entity.split(" ", 1)[1]` raises IndexError
(modelled as `none`) when the entity has no space. -/
def process_masked_phone (entity : String) : Option (String × String) :=
  if entity = "" then some (entity, "")
  else if entity.toList.any (fun c => c == '*') then
    match splitFirstSpace entity.toList with
    | some (p0, p1) => some (pyTitle (String.mk p1), pyTitle (String.mk p0))
    | none => none
  else some (pyTitle entity, "")

/-- Literal (case-sensitive) match of `pat` at the head; returns the rest. -/
def matchLit : List Char → List Char → Option (List Char)
  | [], l => some l
  | _, [] => none
  | p :: ps, c :: cs => if c == p then matchLit ps cs else none

/-- Case-insensitive match of a lowercase literal at the head. -/
def matchLitCI : List Char → List Char → Option (List Char)
  | [], l => some l
  | _, [] => none
  | p :: ps, c :: cs => if c.toLower == p then matchLitCI ps cs else none

/-- Model of greedy `\s+`: require at least one whitespace character and
consume the whole run. -/
def wsRun1 : List Char → Option (List Char)
  | c :: cs => if c.isWhitespace then some (cs.dropWhile Char.isWhitespace) else none
  | [] => none

/-- Model of the lazy `.*?(?:is)\s+` tail of the business pattern: scan
for the earliest `is` (case-insensitive) followed by whitespace; returns
group 2 (the rest after the whitespace run). -/
def findIsWs : List Char → Option (List Char)
  | [] => none
  | l@(_ :: t) =>
    match matchLitCI ['i', 's'] l with
    | some rest =>
      match wsRun1 rest with
      | some g2 => some g2
      | none => findIsWs t
    | none => findIsWs t

/-- Scan of `(.*?)\s+(?:via).*?(?:is)\s+(.*)` (case-insensitive): find the
earliest end of group 1 such that a whitespace run, `via`, a lazy gap,
`is` and a whitespace run follow; returns (group 1, group 2). -/
def viaScan : List Char → List Char → Option (List Char × List Char)
  | _, [] => none
  | acc, l@(c :: t) =>
    match (match wsRun1 l with
           | some r1 =>
             match matchLitCI ['v', 'i', 'a'] r1 with
             | some r2 => findIsWs r2
             | none => none
           | none => none) with
    | some g2 => some (acc.reverse, g2)
    | none => viaScan (c :: acc) t

/-- `process_business_and_account`: the pattern
`(.*?)(?:\s+(?:via).*?(?:is)\s+(.*)|$)` always matches thanks to the `|$`
alternative, so the source's trailing `return entity, ""` lines are dead;
when the `via … is` branch never fires, group 1 is the whole entity
(stripped, it is truthy because the empty entity was handled above) and
group 2 is `None`.  Python truthiness: an empty group yields `""` without
stripping. -/
def process_business_and_account (entity : String) : String × String :=
  if entity = "" then (entity, "")
  else
    match viaScan [] entity.toList with
    | some (g1, g2) =>
        (if String.mk g1 = "" then "" else pyStrip (String.mk g1),
         if String.mk g2 = "" then "" else pyStrip (String.mk g2))
    | none => (pyStrip entity, "")

/-- Scan of `(.*?)\s+Acc\.\s+(.*)` (case-sensitive): earliest end of group
1 such that a whitespace run, `Acc.` and a whitespace run follow; group 2
is the rest after the second whitespace run. -/
def accScan : List Char → List Char → Option (List Char × List Char)
  | _, [] => none
  | acc, l@(c :: t) =>
    match (match wsRun1 l with
           | some r1 =>
             match matchLit ['A', 'c', 'c', '.'] r1 with
             | some r2 => wsRun1 r2
             | none => none
           | none => none) with
    | some g2 => some (acc.reverse, g2)
    | none => accScan (c :: acc) t

/-- `extract_paybill_details`: the pattern `(.*?)(?:\s+Acc\.\s+(.*)|$)`
always matches; group 1 is stripped unconditionally, group 2 only when
truthy. -/
def extract_paybill_details (entity : String) : String × String :=
  if entity = "" then (entity, "")
  else
    match accScan [] entity.toList with
    | some (g1, g2) =>
        (pyStrip (String.mk g1),
         if String.mk g2 = "" then "" else pyStrip (String.mk g2))
    | none => (pyStrip entity, "")

/-- The guard of rule `n` (0-based; the source's rules 1–19 in declaration
order) over the lowercased triple `(details, type_desc, type_class)`.
Rule index 18 is the `case _` fallback and always matches. -/
def ruleMatch (t : Tx) : Nat → Bool :=
  fun n =>
    let x := pyLower t.details
    let y := pyLower t.type_desc
    let z := pyLower t.type_class
    match n with
    | 0 => z == "funds received from"
    | 1 => z == "merchant customer payment from" || pyIn "salary payment from" z ||
           pyIn "promotion payment from" z || pyIn "business payment from" z ||
           pyIn "funds received from business" z
    | 2 => pyIn "deposit of" x
    | 3 => z == "customer payment to small" && y == "business from"
    | 4 => pyIn "reversal" x
    | 5 => pyIn "term loan" x
    | 6 => pyIn "kcb m-pesa" x
    | 7 => pyIn "m-shwari" x
    | 8 => pyIn "small business transfer to" z && pyIn "other small business from" y
    | 9 => pyIn "customer transfer" x || pyIn "send money" x ||
           pyIn "transfer to other small business to" x
    | 10 => z == "small business payment to"
    | 11 => pyIn "overdraft" x || pyIn "od loan" x
    | 12 => pyIn "merchant payment" x || pyIn "pay merchant" x
    | 13 => pyIn "pay bill" x
    | 14 => pyIn "customer payment to small business to" x
    | 15 => pyIn "withdrawal" x && !(pyTake 4 y == "from")
    | 16 => pyIn "airtime" x || pyIn "bundles" y || pyIn "bundle" x
    | 17 => x == "nan"
    | _ => true

/-- The base `transaction_data` dictionary before any rule fires. -/
def baseData (t : Tx) : TxData :=
  { receipt_no := t.receipt_no, date_time := t.date_time, details := t.details,
    paid_in := t.paid_in, withdrawn := t.withdrawn, entity := t.entity,
    type_class := t.type_class, type_desc := t.type_desc, month := t.month,
    week := t.week, processed_entity := PEnt.str t.entity,
    is_charge := Charge.pybool false, category := none,
    subcategory := PySub.pynone, account_no := none }

/-- The shared entity-processing block of rules 1, 2, 4, 9 and 11:
masked-phone normalizer when the first character is numeric, otherwise the
business normalizer; stores the name and the account and the category with
`is_charge = False`. -/
def assignEntity (base : TxData) (entity cat : String) : Option TxData :=
  (if pyIsNumericStr (pyTake 1 entity) then process_masked_phone entity
   else some (process_business_and_account entity)).map
    (fun p =>
      { base with category := some cat, is_charge := Charge.pybool false,
                  processed_entity := PEnt.str p.1, account_no := some p.2 })

/-- The body of rule `n` of `categorize_transaction` (what the matched
`case` arm stores into `transaction_data`); index 18 and above is the
fallback arm. -/
def applyRule (t : Tx) (n : Nat) : Option TxData :=
  let x := pyLower t.details
  let y := pyLower t.type_desc
  let z := pyLower t.type_class
  let entity := t.entity
  let base := baseData t
  match n with
  | 0 => assignEntity base entity "ReceivedMoney"
  | 1 => assignEntity base entity "ReceivedMoney_business"
  | 2 => some { base with category := some "Deposit", subcategory := PySub.str "deposit" }
  | 3 => assignEntity base entity "Pochi_in"
  | 4 => some { base with category := some "Reversals", subcategory := PySub.tuple }
  | 5 => some { base with category := some "HustlerFund", subcategory := PySub.str y,
                          is_charge := Charge.pybool (pyIn "charge" z) }
  | 6 => some { base with category := some "KCB", subcategory := PySub.str y }
  | 7 => some { base with category := some "MShwari", subcategory := PySub.str "mshwari" }
  | 8 => assignEntity base entity "businessPayment_fromOtherSME"
  | 9 => (process_masked_phone entity).map
      (fun p =>
        { base with category := some "SendMoney",
                    is_charge := Charge.pybool (pyIn "charge" y),
                    subcategory := PySub.str (if pyIn "charge" y then "charge" else "transfer"),
                    processed_entity := PEnt.str p.1 })
  | 10 => assignEntity base entity "businessPayment_toCustomer"
  | 11 => some { base with category := some "Overdraft", subcategory := PySub.str "overdraft" }
  | 12 => some { base with category := some "BuyGoodsPayments",
                           is_charge := Charge.pybool (pyIn "charge" z),
                           subcategory := PySub.str (if pyIn "charge" z then "charge" else "") }
  | 13 => some { base with category := some "PayBillPayments",
                           is_charge := Charge.pybool (pyIn "charge" z),
                           subcategory := PySub.str (if pyIn "charge" z then "charge" else ""),
                           processed_entity := PEnt.str (extract_paybill_details entity).1,
                           account_no := some (extract_paybill_details entity).2 }
  | 14 => (process_masked_phone entity).map
      (fun p =>
        { base with category := some "Pochi", subcategory := PySub.str "pochi",
                    processed_entity := PEnt.str p.1 })
  | 15 => some { base with category := some "CashWithdrawals",
                           is_charge := Charge.pybool (pyIn "charge" x),
                           subcategory := PySub.str (if pyIn "charge" x then "charge" else "withdrawal") }
  | 16 => (process_masked_phone entity).map
      (fun p =>
        { base with category := some "airtime_bundle", is_charge := Charge.pybool false,
                    subcategory := PySub.str "purchase", processed_entity := PEnt.str p.1 })
  | 17 => some { base with category := some "NoDetails", is_charge := Charge.pystr "",
                           subcategory := PySub.str "" }
  | _ =>
    if pyIsNumericStr (pyTake 2 entity) then
      (process_masked_phone entity).map
        (fun p =>
          { base with category := some "uncategorized", subcategory := PySub.str "unknown",
                      processed_entity := PEnt.pair p.1 p.2 })
    else
      some { base with category := some "uncategorized", subcategory := PySub.str "unknown",
                       processed_entity := PEnt.str "non" }

/-- `categorize_transaction`: the ordered match over
`(details, type_desc, type_class)`; the first rule whose guard holds
fires. -/
def categorize_transaction (t : Tx) : Option TxData :=
  if ruleMatch t 0 then applyRule t 0
  else if ruleMatch t 1 then applyRule t 1
  else if ruleMatch t 2 then applyRule t 2
  else if ruleMatch t 3 then applyRule t 3
  else if ruleMatch t 4 then applyRule t 4
  else if ruleMatch t 5 then applyRule t 5
  else if ruleMatch t 6 then applyRule t 6
  else if ruleMatch t 7 then applyRule t 7
  else if ruleMatch t 8 then applyRule t 8
  else if ruleMatch t 9 then applyRule t 9
  else if ruleMatch t 10 then applyRule t 10
  else if ruleMatch t 11 then applyRule t 11
  else if ruleMatch t 12 then applyRule t 12
  else if ruleMatch t 13 then applyRule t 13
  else if ruleMatch t 14 then applyRule t 14
  else if ruleMatch t 15 then applyRule t 15
  else if ruleMatch t 16 then applyRule t 16
  else if ruleMatch t 17 then applyRule t 17
  else applyRule t 18

/-- The index of the rule that fires on `t` (always defined: rule 18 is
the fallback). -/
def firstIdx (t : Tx) : Nat :=
  if ruleMatch t 0 then 0
  else if ruleMatch t 1 then 1
  else if ruleMatch t 2 then 2
  else if ruleMatch t 3 then 3
  else if ruleMatch t 4 then 4
  else if ruleMatch t 5 then 5
  else if ruleMatch t 6 then 6
  else if ruleMatch t 7 then 7
  else if ruleMatch t 8 then 8
  else if ruleMatch t 9 then 9
  else if ruleMatch t 10 then 10
  else if ruleMatch t 11 then 11
  else if ruleMatch t 12 then 12
  else if ruleMatch t 13 then 13
  else if ruleMatch t 14 then 14
  else if ruleMatch t 15 then 15
  else if ruleMatch t 16 then 16
  else if ruleMatch t 17 then 17
  else 18

/-- The category stored by rule `n`. -/
def ruleCategory : Nat → String
  | 0 => "ReceivedMoney"
  | 1 => "ReceivedMoney_business"
  | 2 => "Deposit"
  | 3 => "Pochi_in"
  | 4 => "Reversals"
  | 5 => "HustlerFund"
  | 6 => "KCB"
  | 7 => "MShwari"
  | 8 => "businessPayment_fromOtherSME"
  | 9 => "SendMoney"
  | 10 => "businessPayment_toCustomer"
  | 11 => "Overdraft"
  | 12 => "BuyGoodsPayments"
  | 13 => "PayBillPayments"
  | 14 => "Pochi"
  | 15 => "CashWithdrawals"
  | 16 => "airtime_bundle"
  | 17 => "NoDetails"
  | _ => "uncategorized"

/-- The 19 category names, in the declaration order of
`TransactionCategorizer.__init__` (which coincides with rule order). -/
def categoryNames : List String :=
  ["ReceivedMoney", "ReceivedMoney_business", "Deposit", "Pochi_in", "Reversals",
   "HustlerFund", "KCB", "MShwari", "businessPayment_fromOtherSME", "SendMoney",
   "businessPayment_toCustomer", "Overdraft", "BuyGoodsPayments", "PayBillPayments",
   "Pochi", "CashWithdrawals", "airtime_bundle", "NoDetails", "uncategorized"]

/-- The `self.categories` dictionary as initialized: every category key
mapped to an empty bucket, in declaration order. -/
def initialCategories : List (String × List TxData) :=
  categoryNames.map (fun c => (c, []))

/-- One append step of the categorization pass: `if category in
self.categories: self.categories[category].append(transaction_data)`. -/
def addToCategory (cats : List (String × List TxData)) (d : TxData) :
    List (String × List TxData) :=
  match d.category with
  | some c =>
    if (cats.map Prod.fst).contains c then
      cats.map (fun p => if p.1 == c then (p.1, p.2 ++ [d]) else p)
    else cats
  | none => cats

/-- `categorize_transactions`: the single pass over all rows, mutating the
instance's buckets (state passed explicitly here); the returned mapping
keeps every key, empty buckets included.  A raised exception aborts the
pass (`none`). -/
def categorize_transactions (cats : List (String × List TxData)) :
    List Tx → Option (List (String × List TxData))
  | [] => some cats
  | r :: rs =>
    match categorize_transaction r with
    | some d => categorize_transactions (addToCategory cats d) rs
    | none => none

/-- `categorize_transactions_efficiently`: constructs a fresh
`TransactionCategorizer` for each call. -/
def categorize_transactions_efficiently (rows : List Tx) :
    Option (List (String × List TxData)) :=
  categorize_transactions initialCategories rows

/-- One row of the summary table; the source formats the min/max
timestamps into a `"min to max"` display string, modelled here as the two
endpoints. -/
structure SummaryRow where
  category : String
  transaction_count : Nat
  total_withdrawn : Rat
  total_paid_in : Rat
  unique_entities : Nat
  date_min : Nat
  date_max : Nat
deriving DecidableEq

/-- Model of pandas `nunique` (no missing values in the modelled data). -/
def pyNunique {α : Type} [DecidableEq α] (l : List α) : Nat := l.dedup.length

/-- The summary row of one non-empty bucket: distinct-receipt count, the
two amount sums, distinct-entity count and the min/max timestamps (the
source renders the last two as a "min to max" display string). -/
def summaryRow (p : String × List TxData) : SummaryRow :=
  { category := p.1,
    transaction_count := pyNunique (p.2.map (fun d => d.receipt_no)),
    total_withdrawn := (p.2.map (fun d => d.withdrawn)).sum,
    total_paid_in := (p.2.map (fun d => d.paid_in)).sum,
    unique_entities := pyNunique (p.2.map (fun d => d.processed_entity)),
    date_min := ((p.2.map (fun d => d.date_time)).min?).getD 0,
    date_max := ((p.2.map (fun d => d.date_time)).max?).getD 0 }

/-- `get_category_summary`: one summary row per non-empty bucket, in
bucket order; empty buckets are skipped. -/
def get_category_summary (data : List (String × List TxData)) : List SummaryRow :=
  data.foldl
    (fun summary p => if p.2.length > 0 then summary ++ [summaryRow p] else summary)
    []

/-- An entity is mask-safe when a masking run implies a space: exactly the
condition under which `process_masked_phone` cannot raise. -/
def maskSafe (e : String) : Prop := '*' ∈ e.toList → ' ' ∈ e.toList

instance (e : String) : Decidable (maskSafe e) :=
  inferInstanceAs (Decidable ('*' ∈ e.toList → ' ' ∈ e.toList))

/-! ## Structural lemmas about the ordered match -/

theorem classify_eq_apply (t : Tx) : categorize_transaction t = applyRule t (firstIdx t) := by
  unfold categorize_transaction firstIdx
  by_cases h0 : ruleMatch t 0 = true
  · rw [if_pos h0, if_pos h0]
  rw [if_neg h0, if_neg h0]
  by_cases h1 : ruleMatch t 1 = true
  · rw [if_pos h1, if_pos h1]
  rw [if_neg h1, if_neg h1]
  by_cases h2 : ruleMatch t 2 = true
  · rw [if_pos h2, if_pos h2]
  rw [if_neg h2, if_neg h2]
  by_cases h3 : ruleMatch t 3 = true
  · rw [if_pos h3, if_pos h3]
  rw [if_neg h3, if_neg h3]
  by_cases h4 : ruleMatch t 4 = true
  · rw [if_pos h4, if_pos h4]
  rw [if_neg h4, if_neg h4]
  by_cases h5 : ruleMatch t 5 = true
  · rw [if_pos h5, if_pos h5]
  rw [if_neg h5, if_neg h5]
  by_cases h6 : ruleMatch t 6 = true
  · rw [if_pos h6, if_pos h6]
  rw [if_neg h6, if_neg h6]
  by_cases h7 : ruleMatch t 7 = true
  · rw [if_pos h7, if_pos h7]
  rw [if_neg h7, if_neg h7]
  by_cases h8 : ruleMatch t 8 = true
  · rw [if_pos h8, if_pos h8]
  rw [if_neg h8, if_neg h8]
  by_cases h9 : ruleMatch t 9 = true
  · rw [if_pos h9, if_pos h9]
  rw [if_neg h9, if_neg h9]
  by_cases h10 : ruleMatch t 10 = true
  · rw [if_pos h10, if_pos h10]
  rw [if_neg h10, if_neg h10]
  by_cases h11 : ruleMatch t 11 = true
  · rw [if_pos h11, if_pos h11]
  rw [if_neg h11, if_neg h11]
  by_cases h12 : ruleMatch t 12 = true
  · rw [if_pos h12, if_pos h12]
  rw [if_neg h12, if_neg h12]
  by_cases h13 : ruleMatch t 13 = true
  · rw [if_pos h13, if_pos h13]
  rw [if_neg h13, if_neg h13]
  by_cases h14 : ruleMatch t 14 = true
  · rw [if_pos h14, if_pos h14]
  rw [if_neg h14, if_neg h14]
  by_cases h15 : ruleMatch t 15 = true
  · rw [if_pos h15, if_pos h15]
  rw [if_neg h15, if_neg h15]
  by_cases h16 : ruleMatch t 16 = true
  · rw [if_pos h16, if_pos h16]
  rw [if_neg h16, if_neg h16]
  by_cases h17 : ruleMatch t 17 = true
  · rw [if_pos h17, if_pos h17]
  rw [if_neg h17, if_neg h17]

theorem ruleMatch_firstIdx (t : Tx) : ruleMatch t (firstIdx t) = true := by
  unfold firstIdx
  by_cases h0 : ruleMatch t 0 = true
  · rw [if_pos h0]; exact h0
  rw [if_neg h0]
  by_cases h1 : ruleMatch t 1 = true
  · rw [if_pos h1]; exact h1
  rw [if_neg h1]
  by_cases h2 : ruleMatch t 2 = true
  · rw [if_pos h2]; exact h2
  rw [if_neg h2]
  by_cases h3 : ruleMatch t 3 = true
  · rw [if_pos h3]; exact h3
  rw [if_neg h3]
  by_cases h4 : ruleMatch t 4 = true
  · rw [if_pos h4]; exact h4
  rw [if_neg h4]
  by_cases h5 : ruleMatch t 5 = true
  · rw [if_pos h5]; exact h5
  rw [if_neg h5]
  by_cases h6 : ruleMatch t 6 = true
  · rw [if_pos h6]; exact h6
  rw [if_neg h6]
  by_cases h7 : ruleMatch t 7 = true
  · rw [if_pos h7]; exact h7
  rw [if_neg h7]
  by_cases h8 : ruleMatch t 8 = true
  · rw [if_pos h8]; exact h8
  rw [if_neg h8]
  by_cases h9 : ruleMatch t 9 = true
  · rw [if_pos h9]; exact h9
  rw [if_neg h9]
  by_cases h10 : ruleMatch t 10 = true
  · rw [if_pos h10]; exact h10
  rw [if_neg h10]
  by_cases h11 : ruleMatch t 11 = true
  · rw [if_pos h11]; exact h11
  rw [if_neg h11]
  by_cases h12 : ruleMatch t 12 = true
  · rw [if_pos h12]; exact h12
  rw [if_neg h12]
  by_cases h13 : ruleMatch t 13 = true
  · rw [if_pos h13]; exact h13
  rw [if_neg h13]
  by_cases h14 : ruleMatch t 14 = true
  · rw [if_pos h14]; exact h14
  rw [if_neg h14]
  by_cases h15 : ruleMatch t 15 = true
  · rw [if_pos h15]; exact h15
  rw [if_neg h15]
  by_cases h16 : ruleMatch t 16 = true
  · rw [if_pos h16]; exact h16
  rw [if_neg h16]
  by_cases h17 : ruleMatch t 17 = true
  · rw [if_pos h17]; exact h17
  rw [if_neg h17]
  rfl

theorem firstIdx_le18 (t : Tx) : firstIdx t ≤ 18 := by
  unfold firstIdx
  by_cases h0 : ruleMatch t 0 = true
  · rw [if_pos h0]; omega
  rw [if_neg h0]
  by_cases h1 : ruleMatch t 1 = true
  · rw [if_pos h1]; omega
  rw [if_neg h1]
  by_cases h2 : ruleMatch t 2 = true
  · rw [if_pos h2]; omega
  rw [if_neg h2]
  by_cases h3 : ruleMatch t 3 = true
  · rw [if_pos h3]; omega
  rw [if_neg h3]
  by_cases h4 : ruleMatch t 4 = true
  · rw [if_pos h4]; omega
  rw [if_neg h4]
  by_cases h5 : ruleMatch t 5 = true
  · rw [if_pos h5]; omega
  rw [if_neg h5]
  by_cases h6 : ruleMatch t 6 = true
  · rw [if_pos h6]; omega
  rw [if_neg h6]
  by_cases h7 : ruleMatch t 7 = true
  · rw [if_pos h7]; omega
  rw [if_neg h7]
  by_cases h8 : ruleMatch t 8 = true
  · rw [if_pos h8]; omega
  rw [if_neg h8]
  by_cases h9 : ruleMatch t 9 = true
  · rw [if_pos h9]; omega
  rw [if_neg h9]
  by_cases h10 : ruleMatch t 10 = true
  · rw [if_pos h10]; omega
  rw [if_neg h10]
  by_cases h11 : ruleMatch t 11 = true
  · rw [if_pos h11]; omega
  rw [if_neg h11]
  by_cases h12 : ruleMatch t 12 = true
  · rw [if_pos h12]; omega
  rw [if_neg h12]
  by_cases h13 : ruleMatch t 13 = true
  · rw [if_pos h13]; omega
  rw [if_neg h13]
  by_cases h14 : ruleMatch t 14 = true
  · rw [if_pos h14]; omega
  rw [if_neg h14]
  by_cases h15 : ruleMatch t 15 = true
  · rw [if_pos h15]; omega
  rw [if_neg h15]
  by_cases h16 : ruleMatch t 16 = true
  · rw [if_pos h16]; omega
  rw [if_neg h16]
  by_cases h17 : ruleMatch t 17 = true
  · rw [if_pos h17]; omega
  rw [if_neg h17]

theorem firstIdx_min (t : Tx) (k : Nat) (hk : k < firstIdx t) : ruleMatch t k = false := by
  unfold firstIdx at hk
  by_cases h0 : ruleMatch t 0 = true
  · rw [if_pos h0] at hk; omega
  rw [if_neg h0] at hk
  by_cases h1 : ruleMatch t 1 = true
  · rw [if_pos h1] at hk; interval_cases k; simp_all
  rw [if_neg h1] at hk
  by_cases h2 : ruleMatch t 2 = true
  · rw [if_pos h2] at hk; interval_cases k <;> simp_all
  rw [if_neg h2] at hk
  by_cases h3 : ruleMatch t 3 = true
  · rw [if_pos h3] at hk; interval_cases k <;> simp_all
  rw [if_neg h3] at hk
  by_cases h4 : ruleMatch t 4 = true
  · rw [if_pos h4] at hk; interval_cases k <;> simp_all
  rw [if_neg h4] at hk
  by_cases h5 : ruleMatch t 5 = true
  · rw [if_pos h5] at hk; interval_cases k <;> simp_all
  rw [if_neg h5] at hk
  by_cases h6 : ruleMatch t 6 = true
  · rw [if_pos h6] at hk; interval_cases k <;> simp_all
  rw [if_neg h6] at hk
  by_cases h7 : ruleMatch t 7 = true
  · rw [if_pos h7] at hk; interval_cases k <;> simp_all
  rw [if_neg h7] at hk
  by_cases h8 : ruleMatch t 8 = true
  · rw [if_pos h8] at hk; interval_cases k <;> simp_all
  rw [if_neg h8] at hk
  by_cases h9 : ruleMatch t 9 = true
  · rw [if_pos h9] at hk; interval_cases k <;> simp_all
  rw [if_neg h9] at hk
  by_cases h10 : ruleMatch t 10 = true
  · rw [if_pos h10] at hk; interval_cases k <;> simp_all
  rw [if_neg h10] at hk
  by_cases h11 : ruleMatch t 11 = true
  · rw [if_pos h11] at hk; interval_cases k <;> simp_all
  rw [if_neg h11] at hk
  by_cases h12 : ruleMatch t 12 = true
  · rw [if_pos h12] at hk; interval_cases k <;> simp_all
  rw [if_neg h12] at hk
  by_cases h13 : ruleMatch t 13 = true
  · rw [if_pos h13] at hk; interval_cases k <;> simp_all
  rw [if_neg h13] at hk
  by_cases h14 : ruleMatch t 14 = true
  · rw [if_pos h14] at hk; interval_cases k <;> simp_all
  rw [if_neg h14] at hk
  by_cases h15 : ruleMatch t 15 = true
  · rw [if_pos h15] at hk; interval_cases k <;> simp_all
  rw [if_neg h15] at hk
  by_cases h16 : ruleMatch t 16 = true
  · rw [if_pos h16] at hk; interval_cases k <;> simp_all
  rw [if_neg h16] at hk
  by_cases h17 : ruleMatch t 17 = true
  · rw [if_pos h17] at hk; interval_cases k <;> simp_all
  rw [if_neg h17] at hk
  interval_cases k <;> simp_all

theorem firstIdx_eq (t : Tx) (i : Nat) (hm : ruleMatch t i = true)
    (hmin : ∀ k, k < i → ruleMatch t k = false) : firstIdx t = i := by
  rcases Nat.lt_trichotomy (firstIdx t) i with h | h | h
  · have hc := hmin (firstIdx t) h
    rw [ruleMatch_firstIdx t] at hc
    exact absurd hc (by simp)
  · exact h
  · have hc := firstIdx_min t i h
    rw [hm] at hc
    exact absurd hc (by simp)

/-! ## Per-rule facts -/

theorem splitFirstSpace_isSome (l : List Char) (h : ' ' ∈ l) :
    (splitFirstSpace l).isSome := by
  induction l with
  | nil => cases h
  | cons c cs ih =>
    unfold splitFirstSpace
    by_cases hc : c = ' '
    · simp [hc]
    · have hcs : ' ' ∈ cs := by
        rcases List.mem_cons.mp h with h1 | h1
        · exact absurd h1.symm hc
        · exact h1
      simp [hc, Option.isSome_map, ih hcs]

theorem pmf_isSome (e : String) (hs : maskSafe e) : (process_masked_phone e).isSome := by
  unfold process_masked_phone
  by_cases h1 : e = ""
  · simp [h1]
  by_cases h2 : '*' ∈ e.data
  · have hsp : ' ' ∈ e.data := hs h2
    rcases Option.isSome_iff_exists.mp (splitFirstSpace_isSome e.data hsp) with ⟨p, hp⟩
    rcases p with ⟨p0, p1⟩
    simp [h1, h2, hp]
  · simp [h1, h2]

theorem assignEntity_some {base : TxData} {e cat : String} {d : TxData}
    (h : assignEntity base e cat = some d) :
    d.category = some cat ∧ d.is_charge = Charge.pybool false ∧
      (∃ v, d.processed_entity = PEnt.str v) ∧ ∃ a, d.account_no = some a := by
  unfold assignEntity at h
  rcases Option.map_eq_some'.mp h with ⟨p, _, hd⟩
  subst hd
  exact ⟨rfl, rfl, ⟨p.1, rfl⟩, ⟨p.2, rfl⟩⟩

theorem assignEntity_isSome (base : TxData) (e cat : String) (hs : maskSafe e) :
    (assignEntity base e cat).isSome := by
  unfold assignEntity
  by_cases hn : pyIsNumericStr (pyTake 1 e) = true
  · rw [if_pos hn]
    rcases Option.isSome_iff_exists.mp (pmf_isSome e hs) with ⟨p, hp⟩
    rw [hp]; rfl
  · rw [if_neg hn]; rfl

/-! ## Definitional equations for `applyRule` (one per match arm) -/

theorem applyRule_eq0 (t : Tx) :
    applyRule t 0 = assignEntity (baseData t) t.entity "ReceivedMoney" := rfl

theorem applyRule_eq1 (t : Tx) :
    applyRule t 1 = assignEntity (baseData t) t.entity "ReceivedMoney_business" := rfl

theorem applyRule_eq2 (t : Tx) :
    applyRule t 2 =
      some { (baseData t) with
             category := some "Deposit", subcategory := PySub.str "deposit" } := rfl

theorem applyRule_eq3 (t : Tx) :
    applyRule t 3 = assignEntity (baseData t) t.entity "Pochi_in" := rfl

theorem applyRule_eq4 (t : Tx) :
    applyRule t 4 =
      some { (baseData t) with
             category := some "Reversals", subcategory := PySub.tuple } := rfl

theorem applyRule_eq5 (t : Tx) :
    applyRule t 5 =
      some { (baseData t) with
             category := some "HustlerFund", subcategory := PySub.str (pyLower t.type_desc),
             is_charge := Charge.pybool (pyIn "charge" (pyLower t.type_class)) } := rfl

theorem applyRule_eq6 (t : Tx) :
    applyRule t 6 =
      some { (baseData t) with
             category := some "KCB", subcategory := PySub.str (pyLower t.type_desc) } := rfl

theorem applyRule_eq7 (t : Tx) :
    applyRule t 7 =
      some { (baseData t) with
             category := some "MShwari", subcategory := PySub.str "mshwari" } := rfl

theorem applyRule_eq8 (t : Tx) :
    applyRule t 8 = assignEntity (baseData t) t.entity "businessPayment_fromOtherSME" := rfl

theorem applyRule_eq9 (t : Tx) :
    applyRule t 9 =
      (process_masked_phone t.entity).map
        (fun p =>
          { (baseData t) with
            category := some "SendMoney",
            is_charge := Charge.pybool (pyIn "charge" (pyLower t.type_desc)),
            subcategory := PySub.str
              (if pyIn "charge" (pyLower t.type_desc) then "charge" else "transfer"),
            processed_entity := PEnt.str p.1 }) := rfl

theorem applyRule_eq10 (t : Tx) :
    applyRule t 10 = assignEntity (baseData t) t.entity "businessPayment_toCustomer" := rfl

theorem applyRule_eq11 (t : Tx) :
    applyRule t 11 =
      some { (baseData t) with
             category := some "Overdraft", subcategory := PySub.str "overdraft" } := rfl

theorem applyRule_eq12 (t : Tx) :
    applyRule t 12 =
      some { (baseData t) with
             category := some "BuyGoodsPayments",
             is_charge := Charge.pybool (pyIn "charge" (pyLower t.type_class)),
             subcategory := PySub.str
               (if pyIn "charge" (pyLower t.type_class) then "charge" else "") } := rfl

theorem applyRule_eq13 (t : Tx) :
    applyRule t 13 =
      some { (baseData t) with
             category := some "PayBillPayments",
             is_charge := Charge.pybool (pyIn "charge" (pyLower t.type_class)),
             subcategory := PySub.str
               (if pyIn "charge" (pyLower t.type_class) then "charge" else ""),
             processed_entity := PEnt.str (extract_paybill_details t.entity).1,
             account_no := some (extract_paybill_details t.entity).2 } := rfl

theorem applyRule_eq14 (t : Tx) :
    applyRule t 14 =
      (process_masked_phone t.entity).map
        (fun p =>
          { (baseData t) with
            category := some "Pochi", subcategory := PySub.str "pochi",
            processed_entity := PEnt.str p.1 }) := rfl

theorem applyRule_eq15 (t : Tx) :
    applyRule t 15 =
      some { (baseData t) with
             category := some "CashWithdrawals",
             is_charge := Charge.pybool (pyIn "charge" (pyLower t.details)),
             subcategory := PySub.str
               (if pyIn "charge" (pyLower t.details) then "charge" else "withdrawal") } := rfl

theorem applyRule_eq16 (t : Tx) :
    applyRule t 16 =
      (process_masked_phone t.entity).map
        (fun p =>
          { (baseData t) with
            category := some "airtime_bundle", is_charge := Charge.pybool false,
            subcategory := PySub.str "purchase", processed_entity := PEnt.str p.1 }) := rfl

theorem applyRule_eq17 (t : Tx) :
    applyRule t 17 =
      some { (baseData t) with
             category := some "NoDetails", is_charge := Charge.pystr "",
             subcategory := PySub.str "" } := rfl

theorem applyRule_eq18 (t : Tx) (m : Nat) :
    applyRule t (m + 18) =
      (if pyIsNumericStr (pyTake 2 t.entity) then
        (process_masked_phone t.entity).map
          (fun p =>
            { (baseData t) with
              category := some "uncategorized", subcategory := PySub.str "unknown",
              processed_entity := PEnt.pair p.1 p.2 })
      else
        some { (baseData t) with
               category := some "uncategorized", subcategory := PySub.str "unknown",
               processed_entity := PEnt.str "non" }) := rfl

theorem applyRule_eq18lit (t : Tx) :
    applyRule t 18 =
      (if pyIsNumericStr (pyTake 2 t.entity) then
        (process_masked_phone t.entity).map
          (fun p =>
            { (baseData t) with
              category := some "uncategorized", subcategory := PySub.str "unknown",
              processed_entity := PEnt.pair p.1 p.2 })
      else
        some { (baseData t) with
               category := some "uncategorized", subcategory := PySub.str "unknown",
               processed_entity := PEnt.str "non" }) := rfl

theorem applyRule_isSome (t : Tx) (n : Nat) (hn : n ≤ 18) (hs : maskSafe t.entity) :
    (applyRule t n).isSome := by
  have hpm := pmf_isSome t.entity hs
  rcases Option.isSome_iff_exists.mp hpm with ⟨p, hp⟩
  interval_cases n
  · exact assignEntity_isSome _ _ _ hs
  · exact assignEntity_isSome _ _ _ hs
  · rw [applyRule_eq2]; rfl
  · exact assignEntity_isSome _ _ _ hs
  · rw [applyRule_eq4]; rfl
  · rw [applyRule_eq5]; rfl
  · rw [applyRule_eq6]; rfl
  · rw [applyRule_eq7]; rfl
  · exact assignEntity_isSome _ _ _ hs
  · rw [applyRule_eq9, hp]; rfl
  · exact assignEntity_isSome _ _ _ hs
  · rw [applyRule_eq11]; rfl
  · rw [applyRule_eq12]; rfl
  · rw [applyRule_eq13]; rfl
  · rw [applyRule_eq14, hp]; rfl
  · rw [applyRule_eq15]; rfl
  · rw [applyRule_eq16, hp]; rfl
  · rw [applyRule_eq17]; rfl
  · rw [applyRule_eq18lit]
    by_cases hn2 : pyIsNumericStr (pyTake 2 t.entity) = true
    · rw [if_pos hn2, hp]; rfl
    · rw [if_neg hn2]; rfl

theorem applyRule_category (t : Tx) (n : Nat) (hn : n ≤ 18) (d : TxData)
    (h : applyRule t n = some d) : d.category = some (ruleCategory n) := by
  interval_cases n
  · rw [applyRule_eq0] at h; exact (assignEntity_some h).1
  · rw [applyRule_eq1] at h; exact (assignEntity_some h).1
  · rw [applyRule_eq2, Option.some.injEq] at h; subst h; rfl
  · rw [applyRule_eq3] at h; exact (assignEntity_some h).1
  · rw [applyRule_eq4, Option.some.injEq] at h; subst h; rfl
  · rw [applyRule_eq5, Option.some.injEq] at h; subst h; rfl
  · rw [applyRule_eq6, Option.some.injEq] at h; subst h; rfl
  · rw [applyRule_eq7, Option.some.injEq] at h; subst h; rfl
  · rw [applyRule_eq8] at h; exact (assignEntity_some h).1
  · rw [applyRule_eq9] at h
    rcases Option.map_eq_some'.mp h with ⟨q, _, hd⟩
    subst hd; rfl
  · rw [applyRule_eq10] at h; exact (assignEntity_some h).1
  · rw [applyRule_eq11, Option.some.injEq] at h; subst h; rfl
  · rw [applyRule_eq12, Option.some.injEq] at h; subst h; rfl
  · rw [applyRule_eq13, Option.some.injEq] at h; subst h; rfl
  · rw [applyRule_eq14] at h
    rcases Option.map_eq_some'.mp h with ⟨q, _, hd⟩
    subst hd; rfl
  · rw [applyRule_eq15, Option.some.injEq] at h; subst h; rfl
  · rw [applyRule_eq16] at h
    rcases Option.map_eq_some'.mp h with ⟨q, _, hd⟩
    subst hd; rfl
  · rw [applyRule_eq17, Option.some.injEq] at h; subst h; rfl
  · rw [applyRule_eq18lit] at h
    by_cases hn2 : pyIsNumericStr (pyTake 2 t.entity) = true
    · rw [if_pos hn2] at h
      rcases Option.map_eq_some'.mp h with ⟨q, _, hd⟩
      subst hd; rfl
    · rw [if_neg hn2, Option.some.injEq] at h; subst h; rfl

theorem applyRule_charge (t : Tx) (n : Nat) (hn : n ≤ 18) (d : TxData)
    (h : applyRule t n = some d) :
    (d.is_charge = Charge.pystr "" ↔ d.category = some "NoDetails") ∧
      (d.is_charge = Charge.pybool true →
        d.category = some "SendMoney" ∨ d.category = some "BuyGoodsPayments" ∨
        d.category = some "PayBillPayments" ∨ d.category = some "CashWithdrawals" ∨
        d.category = some "HustlerFund") := by
  interval_cases n
  · rw [applyRule_eq0] at h
    rcases assignEntity_some h with ⟨hc, hic, _, _⟩
    rw [hc, hic]; simp [baseData]
  · rw [applyRule_eq1] at h
    rcases assignEntity_some h with ⟨hc, hic, _, _⟩
    rw [hc, hic]; simp [baseData]
  · rw [applyRule_eq2, Option.some.injEq] at h; subst h; simp [baseData]
  · rw [applyRule_eq3] at h
    rcases assignEntity_some h with ⟨hc, hic, _, _⟩
    rw [hc, hic]; simp [baseData]
  · rw [applyRule_eq4, Option.some.injEq] at h; subst h; simp [baseData]
  · rw [applyRule_eq5, Option.some.injEq] at h; subst h; simp [baseData]
  · rw [applyRule_eq6, Option.some.injEq] at h; subst h; simp [baseData]
  · rw [applyRule_eq7, Option.some.injEq] at h; subst h; simp [baseData]
  · rw [applyRule_eq8] at h
    rcases assignEntity_some h with ⟨hc, hic, _, _⟩
    rw [hc, hic]; simp [baseData]
  · rw [applyRule_eq9] at h
    rcases Option.map_eq_some'.mp h with ⟨q, _, hd⟩
    subst hd; simp [baseData]
  · rw [applyRule_eq10] at h
    rcases assignEntity_some h with ⟨hc, hic, _, _⟩
    rw [hc, hic]; simp [baseData]
  · rw [applyRule_eq11, Option.some.injEq] at h; subst h; simp [baseData]
  · rw [applyRule_eq12, Option.some.injEq] at h; subst h; simp [baseData]
  · rw [applyRule_eq13, Option.some.injEq] at h; subst h; simp [baseData]
  · rw [applyRule_eq14] at h
    rcases Option.map_eq_some'.mp h with ⟨q, _, hd⟩
    subst hd; simp [baseData]
  · rw [applyRule_eq15, Option.some.injEq] at h; subst h; simp [baseData]
  · rw [applyRule_eq16] at h
    rcases Option.map_eq_some'.mp h with ⟨q, _, hd⟩
    subst hd; simp [baseData]
  · rw [applyRule_eq17, Option.some.injEq] at h; subst h; simp [baseData]
  · rw [applyRule_eq18lit] at h
    by_cases hn2 : pyIsNumericStr (pyTake 2 t.entity) = true
    · rw [if_pos hn2] at h
      rcases Option.map_eq_some'.mp h with ⟨q, _, hd⟩
      subst hd; simp [baseData]
    · rw [if_neg hn2, Option.some.injEq] at h; subst h; simp [baseData]

/-! ## Claim C1: ordered, exclusive-first-match rule evaluation -/

/-- C1: rule evaluation is ordered and exclusive-first-match: when a
transaction's fields satisfy the guards of rules `i` and `j` with `i < j`
and no rule before `i` matches, `categorize_transaction` assigns rule
`i`'s category (the mask-safety hypothesis rules out the masked-phone
IndexError, which would otherwise abort classification). -/
theorem classify_first_match_precedence (t : Tx) (i j : Nat) (hij : i < j) (hj : j ≤ 18)
    (hi : ruleMatch t i = true) (h' : ruleMatch t j = true)
    (hmin : ∀ k, k < i → ruleMatch t k = false) (hs : maskSafe t.entity) :
    ∃ d, categorize_transaction t = some d ∧ d.category = some (ruleCategory i) := by
  have hle : i ≤ 18 := le_trans (le_of_lt hij) hj
  have hfi : firstIdx t = i := firstIdx_eq t i hi hmin
  rcases Option.isSome_iff_exists.mp (applyRule_isSome t i hle hs) with ⟨d, hd⟩
  refine ⟨d, ?_, applyRule_category t i hle d hd⟩
  rw [classify_eq_apply, hfi]
  exact hd

/-- The spec's example input for precedence: lowercased details contain
both "pay bill" (rule 14) and "withdrawal" (rule 16), `type_desc` does not
start with "from". -/
def c1tx : Tx :=
  ⟨"R1", 0, "pay bill q withdrawal", 0, 0, "E", "", "", "m", "w"⟩

theorem classify_first_match_precedence_witness :
    ruleMatch c1tx 13 = true ∧ ruleMatch c1tx 15 = true ∧
      ∃ d, categorize_transaction c1tx = some d ∧ d.category = some "PayBillPayments" := by
  refine ⟨by decide, by decide, ?_⟩
  exact classify_first_match_precedence c1tx 13 15 (by decide) (by decide) (by decide)
    (by decide) (by decide) (by decide)

/-! ## Claim C2: classification never throws -/

/-- A transaction whose entity contains a masking run but no space: rule
10 (SendMoney) fires and `process_masked_phone` raises IndexError on
`parts[1]` (modelled as `none`). -/
def c2tx : Tx :=
  ⟨"R2", 0, "customer transfer", 0, 0, "2***", "", "", "m", "w"⟩

/-- C2 counterexample: classification CAN throw: on `c2tx` (entity
`"2***"`, details matching the SendMoney rule) the masked-phone split of
the entity fails, refuting "classification never throws ... the
masked-phone normalizer's split cannot fail for any entity containing a
masking-character run". -/
theorem classify_throws_cex :
    categorize_transaction c2tx = none ∧ '*' ∈ c2tx.entity.toList := by
  exact ⟨by decide, by decide⟩

/-- C2 amended: classification never throws provided every entity that
contains a masking-character run also contains a space (the condition
under which `parts[1]` exists in `process_masked_phone`). -/
theorem classify_total_of_maskSafe (t : Tx) (hs : maskSafe t.entity) :
    (categorize_transaction t).isSome := by
  rw [classify_eq_apply]
  exact applyRule_isSome t (firstIdx t) (firstIdx_le18 t) hs

def c2wtx : Tx :=
  ⟨"R2w", 0, "customer transfer to 254***9 Jane", 0, 0, "254***9 Jane", "", "", "m", "w"⟩

theorem classify_total_of_maskSafe_witness :
    maskSafe c2wtx.entity ∧ (categorize_transaction c2wtx).isSome := by
  refine ⟨by decide, ?_⟩
  exact classify_total_of_maskSafe c2wtx (by decide)

/-! ## Claim C4: the rule-2 guard -/

theorem ruleCategory_inj_rmb (k : Nat) (hk : k ≤ 18)
    (h : ruleCategory k = "ReceivedMoney_business") : k = 1 := by
  interval_cases k <;> first | rfl | exact absurd h (by decide)

/-- C4 amended: with rule 1 not matching (and mask-safety), a transaction
is classified ReceivedMoney_business exactly when rule 2's guard holds;
the guard tests the lowercased `type_class` (not `type_desc` as the spec
says) for the three "... payment from" phrases; on match `is_charge` is
false. -/
theorem rule2_characterization (t : Tx) (h0 : ruleMatch t 0 = false) (hs : maskSafe t.entity) :
    ((categorize_transaction t).map (fun d => d.category) =
        some (some "ReceivedMoney_business") ↔ ruleMatch t 1 = true) ∧
    (ruleMatch t 1 = true →
      (categorize_transaction t).map (fun d => d.is_charge) = some (Charge.pybool false)) := by
  have key : ruleMatch t 1 = true →
      ∃ d, categorize_transaction t = some d ∧ d.category = some "ReceivedMoney_business" ∧
        d.is_charge = Charge.pybool false := by
    intro hg
    have hfi : firstIdx t = 1 := by
      refine firstIdx_eq t 1 hg ?_
      intro k hk
      interval_cases k
      exact h0
    rcases Option.isSome_iff_exists.mp
      (assignEntity_isSome (baseData t) t.entity "ReceivedMoney_business" hs) with ⟨d, hd⟩
    have hclass : categorize_transaction t = some d := by
      rw [classify_eq_apply, hfi, applyRule_eq1]
      exact hd
    rcases assignEntity_some hd with ⟨hc, hic, _, _⟩
    exact ⟨d, hclass, hc, hic⟩
  refine ⟨⟨?_, ?_⟩, ?_⟩
  · intro h
    rcases Option.map_eq_some'.mp h with ⟨d, hd, hcat⟩
    rw [classify_eq_apply] at hd
    have hc := applyRule_category t (firstIdx t) (firstIdx_le18 t) d hd
    have hrc : ruleCategory (firstIdx t) = "ReceivedMoney_business" :=
      Option.some.inj (hc.symm.trans hcat)
    have hk := ruleCategory_inj_rmb (firstIdx t) (firstIdx_le18 t) hrc
    rw [← hk]
    exact ruleMatch_firstIdx t
  · intro hg
    rcases key hg with ⟨d, hclass, hc, _⟩
    rw [hclass, Option.map_some', hc]
  · intro hg
    rcases key hg with ⟨d, hclass, _, hic⟩
    rw [hclass, Option.map_some', hic]

/-- type_desc carries "salary payment from" but type_class does not: the
original claim predicts ReceivedMoney_business, the code falls through to
uncategorized. -/
def c4cex : Tx := ⟨"R4", 0, "zzz", 0, 0, "B", "zzz", "salary payment from", "m", "w"⟩

/-- C4 counterexample: the claim as stated is false: the code checks the
substrings on `type_class`, so a transaction whose `type_desc` contains
"salary payment from" is NOT classified ReceivedMoney_business. -/
theorem rule2_type_desc_cex :
    pyIn "salary payment from" (pyLower c4cex.type_desc) = true ∧
    (categorize_transaction c4cex).map (fun d => d.category) = some (some "uncategorized") ∧
    some (some "uncategorized") ≠ (some (some "ReceivedMoney_business") : Option (Option String)) := by
  exact ⟨by decide, by decide, by decide⟩

def c4wtx : Tx := ⟨"R4w", 0, "x", 0, 0, "Bob", "merchant customer payment from", "", "m", "w"⟩

theorem rule2_characterization_witness :
    ruleMatch c4wtx 0 = false ∧
    (categorize_transaction c4wtx).map (fun d => d.category) =
      some (some "ReceivedMoney_business") := by
  refine ⟨by decide, ?_⟩
  exact (rule2_characterization c4wtx (by decide) (by decide)).1.mpr (by decide)

/-! ## Claim C5: the literal-"nan" details fallback -/

/-- details is the literal "nan" but type_class matches rule 1, which
precedes the NoDetails rule. -/
def c5cex : Tx := ⟨"R5", 0, "nan", 0, 0, "Bob", "funds received from", "", "m", "w"⟩

/-- C5 counterexample: "details = \"nan\" implies NoDetails regardless of
the other fields" is false: rules keyed on `type_class`/`type_desc` alone
(here rule 1) fire before rule 18 reads the details. -/
theorem nan_details_cex :
    c5cex.details = "nan" ∧
    (categorize_transaction c5cex).map (fun d => d.category) = some (some "ReceivedMoney") ∧
    some (some "ReceivedMoney") ≠ (some (some "NoDetails") : Option (Option String)) := by
  exact ⟨rfl, by decide, by decide⟩

/-- C5 amended: a transaction whose lowercased details are the literal
"nan" is classified NoDetails provided none of the earlier rules that test
only `type_class`/`type_desc` match (rules 1, 2, 4, 9, 11 and the
"bundles"-in-type_desc disjunct of rule 17); every details-based earlier
guard fails on "nan" automatically. -/
theorem nan_details_noDetails (t : Tx) (hx : pyLower t.details = "nan")
    (h0 : ruleMatch t 0 = false) (h1 : ruleMatch t 1 = false) (h3 : ruleMatch t 3 = false)
    (h8 : ruleMatch t 8 = false) (h10 : ruleMatch t 10 = false)
    (hb : pyIn "bundles" (pyLower t.type_desc) = false) :
    ∃ d, categorize_transaction t = some d ∧ d.category = some "NoDetails" := by
  have h17 : ruleMatch t 17 = true := by
    show (pyLower t.details == "nan") = true
    rw [hx]
    decide
  have hmin : ∀ k, k < 17 → ruleMatch t k = false := by
    intro k hk
    interval_cases k
    · exact h0
    · exact h1
    · show pyIn "deposit of" (pyLower t.details) = false
      rw [hx]
      decide
    · exact h3
    · show pyIn "reversal" (pyLower t.details) = false
      rw [hx]
      decide
    · show pyIn "term loan" (pyLower t.details) = false
      rw [hx]
      decide
    · show pyIn "kcb m-pesa" (pyLower t.details) = false
      rw [hx]
      decide
    · show pyIn "m-shwari" (pyLower t.details) = false
      rw [hx]
      decide
    · exact h8
    · show (pyIn "customer transfer" (pyLower t.details) ||
        pyIn "send money" (pyLower t.details) ||
        pyIn "transfer to other small business to" (pyLower t.details)) = false
      rw [hx]
      decide
    · exact h10
    · show (pyIn "overdraft" (pyLower t.details) || pyIn "od loan" (pyLower t.details)) = false
      rw [hx]
      decide
    · show (pyIn "merchant payment" (pyLower t.details) ||
        pyIn "pay merchant" (pyLower t.details)) = false
      rw [hx]
      decide
    · show pyIn "pay bill" (pyLower t.details) = false
      rw [hx]
      decide
    · show pyIn "customer payment to small business to" (pyLower t.details) = false
      rw [hx]
      decide
    · show (pyIn "withdrawal" (pyLower t.details) &&
        !(pyTake 4 (pyLower t.type_desc) == "from")) = false
      rw [hx]
      rfl
    · show (pyIn "airtime" (pyLower t.details) || pyIn "bundles" (pyLower t.type_desc) ||
        pyIn "bundle" (pyLower t.details)) = false
      rw [hx, hb]
      decide
  have hfi : firstIdx t = 17 := firstIdx_eq t 17 h17 hmin
  refine ⟨{ (baseData t) with
            category := some "NoDetails", is_charge := Charge.pystr "",
            subcategory := PySub.str "" }, ?_, rfl⟩
  rw [classify_eq_apply, hfi, applyRule_eq17]

def c5wtx : Tx := ⟨"R5w", 0, "nan", 0, 0, "", "", "", "m", "w"⟩

theorem nan_details_noDetails_witness :
    pyLower c5wtx.details = "nan" ∧
      ∃ d, categorize_transaction c5wtx = some d ∧ d.category = some "NoDetails" := by
  refine ⟨by decide, ?_⟩
  exact nan_details_noDetails c5wtx (by decide) (by decide) (by decide) (by decide)
    (by decide) (by decide) (by decide)

/-! ## Claim C6: the `is_charge` slot -/

/-- details match the HustlerFund rule and type_class contains "charge":
rule 6 stores a true `is_charge` on a category outside the claim's list. -/
def c6cex : Tx := ⟨"R6", 0, "term loan x", 0, 0, "B", "charge", "", "m", "w"⟩

/-- C6 counterexample: `is_charge` can be true for HustlerFund, which is
not among the claim's five permitted categories (and the NoDetails rule
stores the non-boolean empty string). -/
theorem is_charge_hustlerfund_cex :
    (categorize_transaction c6cex).map (fun d => (d.category, d.is_charge)) =
      some (some "HustlerFund", Charge.pybool true) ∧
    ("HustlerFund" : String) ∉ ["SendMoney", "BuyGoodsPayments", "PayBillPayments",
      "CashWithdrawals", "businessPayment_toCustomer"] := by
  exact ⟨by decide, by decide⟩

/-- C6 amended: for every classified transaction, `is_charge` is the
empty string exactly on NoDetails (a boolean everywhere else), and it is
the boolean true only for SendMoney, BuyGoodsPayments, PayBillPayments,
CashWithdrawals or HustlerFund. -/
theorem is_charge_characterization (t : Tx) (d : TxData)
    (h : categorize_transaction t = some d) :
    (d.is_charge = Charge.pystr "" ↔ d.category = some "NoDetails") ∧
      (d.is_charge = Charge.pybool true →
        d.category = some "SendMoney" ∨ d.category = some "BuyGoodsPayments" ∨
        d.category = some "PayBillPayments" ∨ d.category = some "CashWithdrawals" ∨
        d.category = some "HustlerFund") := by
  rw [classify_eq_apply] at h
  exact applyRule_charge t (firstIdx t) (firstIdx_le18 t) d h

def c6wtx : Tx := ⟨"R6w", 0, "merchant payment to T", 0, 0, "Till", "charge", "", "m", "w"⟩

def c6wd : TxData := (categorize_transaction c6wtx).getD (baseData c6wtx)

theorem is_charge_characterization_witness :
    (c6wd.is_charge = Charge.pystr "" ↔ c6wd.category = some "NoDetails") ∧
      (c6wd.is_charge = Charge.pybool true →
        c6wd.category = some "SendMoney" ∨ c6wd.category = some "BuyGoodsPayments" ∨
        c6wd.category = some "PayBillPayments" ∨ c6wd.category = some "CashWithdrawals" ∨
        c6wd.category = some "HustlerFund") :=
  is_charge_characterization c6wtx c6wd (by decide)

/-! ## Claim C7: the fallback rule -/

/-- An input matching no rule, with an entity whose first two characters
are numeric. -/
def c7cex : Tx := ⟨"R7", 0, "xyz", 0, 0, "2547***89 John Doe", "xyz", "", "m", "w"⟩

/-- C7 counterexample: the fallback stores the WHOLE masked-phone tuple in
`processed_entity` (not the normalized name, as the claim says). -/
theorem fallback_pair_cex :
    (categorize_transaction c7cex).map (fun d => d.processed_entity) =
      some (PEnt.pair "John Doe" "2547***89") ∧
    PEnt.pair "John Doe" "2547***89" ≠ PEnt.str "John Doe" := by
  exact ⟨by decide, by decide⟩

/-- C7 amended: on a transaction matching none of rules 1-18, the category
is uncategorized and `processed_entity` is the full
(name, phone-fragment) pair returned by the masked-phone normalizer when
the entity's first two characters are numeric, and the literal "non"
otherwise. -/
theorem fallback_uncategorized (t : Tx) (hmin : ∀ k, k < 18 → ruleMatch t k = false)
    (hs : maskSafe t.entity) :
    ∃ d, categorize_transaction t = some d ∧ d.category = some "uncategorized" ∧
      (pyIsNumericStr (pyTake 2 t.entity) = true →
        ∃ p, process_masked_phone t.entity = some p ∧ d.processed_entity = PEnt.pair p.1 p.2) ∧
      (pyIsNumericStr (pyTake 2 t.entity) = false → d.processed_entity = PEnt.str "non") := by
  have hfi : firstIdx t = 18 := firstIdx_eq t 18 rfl hmin
  rw [classify_eq_apply, hfi, applyRule_eq18lit]
  by_cases hn2 : pyIsNumericStr (pyTake 2 t.entity) = true
  · rw [if_pos hn2]
    rcases Option.isSome_iff_exists.mp (pmf_isSome t.entity hs) with ⟨p, hp⟩
    rw [hp]
    refine ⟨_, rfl, rfl, ?_, ?_⟩
    · intro _
      exact ⟨p, rfl, rfl⟩
    · intro hf
      rw [hn2] at hf
      cases hf
  · rw [if_neg hn2]
    refine ⟨_, rfl, rfl, ?_, ?_⟩
    · intro hq
      exact absurd hq hn2
    · intro _
      rfl

def c7wtx : Tx := ⟨"R7w", 0, "qqq", 0, 0, "25***1 Ann B", "qqq", "", "m", "w"⟩

theorem fallback_uncategorized_witness :
    ∃ d, categorize_transaction c7wtx = some d ∧ d.category = some "uncategorized" ∧
      (pyIsNumericStr (pyTake 2 c7wtx.entity) = true →
        ∃ p, process_masked_phone c7wtx.entity = some p ∧
          d.processed_entity = PEnt.pair p.1 p.2) ∧
      (pyIsNumericStr (pyTake 2 c7wtx.entity) = false →
        d.processed_entity = PEnt.str "non") :=
  fallback_uncategorized c7wtx (by decide) (by decide)

/-! ## Claims C3 and C10: the bucket-accumulating pass -/

theorem filter_cons_of_cat_eq {d : TxData} {ds : List TxData} {c : String}
    (h : d.category = some c) :
    (d :: ds).filter (fun x => x.category == some c) =
      d :: ds.filter (fun x => x.category == some c) := by
  rw [List.filter_cons, if_pos]
  rw [h]
  exact beq_self_eq_true _

theorem filter_cons_of_cat_ne {d : TxData} {ds : List TxData} {c : String}
    (h : ¬ d.category = some c) :
    (d :: ds).filter (fun x => x.category == some c) =
      ds.filter (fun x => x.category == some c) := by
  rw [List.filter_cons, if_neg]
  exact fun hc => h (eq_of_beq hc)

theorem addToCategory_map (cats : List (String × List TxData)) (d : TxData) (ds : List TxData) :
    (addToCategory cats d).map
        (fun p => (p.1, p.2 ++ ds.filter (fun x => x.category == some p.1))) =
      cats.map
        (fun p => (p.1, p.2 ++ (d :: ds).filter (fun x => x.category == some p.1))) := by
  unfold addToCategory
  cases hdc : d.category with
  | none =>
    apply List.map_congr_left
    intro p _
    rw [filter_cons_of_cat_ne (by rw [hdc]; exact fun h => Option.noConfusion h)]
  | some c0 =>
    dsimp only
    by_cases hm : ((cats.map Prod.fst).contains c0) = true
    · rw [if_pos hm, List.map_map]
      apply List.map_congr_left
      intro p _
      simp only [Function.comp_apply]
      by_cases hpc : (p.1 == c0) = true
      · have hp1 : p.1 = c0 := eq_of_beq hpc
        rw [if_pos hpc]
        dsimp only
        rw [filter_cons_of_cat_eq (by rw [hdc, hp1])]
        simp
      · rw [if_neg hpc]
        rw [filter_cons_of_cat_ne ?_]
        intro he
        rw [hdc] at he
        apply hpc
        rw [Option.some.inj he]
        exact beq_self_eq_true _
    · rw [if_neg hm]
      apply List.map_congr_left
      intro p hp
      have hkey : p.1 ∈ cats.map Prod.fst := List.mem_map_of_mem Prod.fst hp
      have hne : ¬ d.category = some p.1 := by
        rw [hdc]
        intro he
        have hpe : p.1 = c0 := (Option.some.inj he).symm
        exact hm (List.elem_iff.mpr (hpe ▸ hkey))
      rw [filter_cons_of_cat_ne hne]

theorem categorize_transactions_eq (rows : List Tx) :
    ∀ cats out, categorize_transactions cats rows = some out →
      out = cats.map
        (fun p => (p.1, p.2 ++ (rows.filterMap categorize_transaction).filter
          (fun x => x.category == some p.1))) := by
  induction rows with
  | nil =>
    intro cats out h
    simp only [categorize_transactions] at h
    cases h
    simp
  | cons r rs ih =>
    intro cats out h
    simp only [categorize_transactions] at h
    cases hr : categorize_transaction r with
    | none => rw [hr] at h; cases h
    | some d =>
      rw [hr] at h
      rw [ih (addToCategory cats d) out h, List.filterMap_cons, hr]
      exact addToCategory_map cats d _

theorem categorize_transactions_allSome (rows : List Tx) :
    ∀ cats out, categorize_transactions cats rows = some out →
      ∀ r ∈ rows, (categorize_transaction r).isSome := by
  induction rows with
  | nil =>
    intro cats out _ r hr
    cases hr
  | cons a rs ih =>
    intro cats out h r hr
    simp only [categorize_transactions] at h
    cases ha : categorize_transaction a with
    | none => rw [ha] at h; cases h
    | some d =>
      rw [ha] at h
      rcases List.mem_cons.mp hr with h1 | h1
      · subst h1; rw [ha]; rfl
      · exact ih _ out h r h1

theorem length_filterMap_isSome {α β : Type} (f : α → Option β) (l : List α)
    (h : ∀ a ∈ l, (f a).isSome) : (l.filterMap f).length = l.length := by
  induction l with
  | nil => rfl
  | cons a t ih =>
    rcases Option.isSome_iff_exists.mp (h a (List.mem_cons_self a t)) with ⟨b, hb⟩
    simp [List.filterMap_cons, hb, ih (fun x hx => h x (List.mem_cons_of_mem a hx))]

theorem classify_category_mem (t : Tx) (d : TxData) (h : categorize_transaction t = some d) :
    ∃ c, d.category = some c ∧ c ∈ categoryNames := by
  rw [classify_eq_apply] at h
  refine ⟨ruleCategory (firstIdx t),
    applyRule_category t (firstIdx t) (firstIdx_le18 t) d h, ?_⟩
  have h18 := firstIdx_le18 t
  set n := firstIdx t with hn
  interval_cases n <;> decide

theorem sum_map_add (l : List String) (f g : String → Nat) :
    (l.map (fun c => f c + g c)).sum = (l.map f).sum + (l.map g).sum := by
  induction l with
  | nil => rfl
  | cons a t ih =>
    simp only [List.map_cons, List.sum_cons, ih]
    omega

theorem sum_indicator_zero (ks : List String) (c0 : String) (hk : c0 ∉ ks) :
    (ks.map (fun c => if c0 = c then 1 else 0)).sum = 0 := by
  induction ks with
  | nil => rfl
  | cons a t ih =>
    have hne : c0 ≠ a := fun he => hk (he ▸ List.mem_cons_self a t)
    simp [hne, ih (fun hm => hk (List.mem_cons_of_mem a hm))]

theorem sum_indicator_one (keys : List String) (c0 : String) (hnd : keys.Nodup) (hc : c0 ∈ keys) :
    (keys.map (fun c => if c0 = c then 1 else 0)).sum = 1 := by
  induction keys with
  | nil => cases hc
  | cons k ks ih =>
    rcases List.nodup_cons.mp hnd with ⟨hk, hnd'⟩
    rcases List.mem_cons.mp hc with h1 | h1
    · subst h1
      rw [List.map_cons, List.sum_cons, sum_indicator_zero ks c0 hk]
      simp
    · have hne : c0 ≠ k := fun he => hk (he ▸ h1)
      simp [hne, ih hnd' h1]

theorem sum_filter_lengths (keys : List String) (ds : List TxData) (hnd : keys.Nodup)
    (htot : ∀ d ∈ ds, ∃ c, d.category = some c ∧ c ∈ keys) :
    (keys.map (fun c => (ds.filter (fun x => x.category == some c)).length)).sum = ds.length := by
  induction ds with
  | nil => simp
  | cons d ds ih =>
    rcases htot d (List.mem_cons_self d ds) with ⟨c0, hdc, hc0⟩
    have hstep : ∀ c ∈ keys,
        (fun c => ((d :: ds).filter (fun x => x.category == some c)).length) c =
          (fun c => (if c0 = c then 1 else 0) +
            (ds.filter (fun x => x.category == some c)).length) c := by
      intro c _
      dsimp only
      rw [List.filter_cons, hdc]
      by_cases hq : c0 = c
      · have hb : ((some c0 : Option String) == some c) = true := by
          rw [hq]
          exact beq_self_eq_true _
        rw [if_pos hb, if_pos hq]
        simp [Nat.add_comm]
      · have hb : ¬((some c0 : Option String) == some c) = true := by
          simp [hq]
        rw [if_neg hb, if_neg hq]
        simp
    rw [List.map_congr_left hstep, sum_map_add, sum_indicator_one keys c0 hnd hc0,
      ih (fun x hx => htot x (List.mem_cons_of_mem d hx))]
    simp [Nat.add_comm]

theorem buckets_sum (s : List (String × List TxData)) (ds : List TxData)
    (hB : ∀ p ∈ s, p.2 = ds.filter (fun x => x.category == some p.1))
    (hkeys : s.map Prod.fst = categoryNames)
    (htot : ∀ x ∈ ds, ∃ c, x.category = some c ∧ c ∈ categoryNames) :
    (s.map (fun p => p.2.length)).sum = ds.length := by
  have hmap : s.map (fun p => p.2.length) =
      (s.map Prod.fst).map
        (fun c => (ds.filter (fun x => x.category == some c)).length) := by
    rw [List.map_map]
    apply List.map_congr_left
    intro p hp
    simp only [Function.comp_apply]
    rw [hB p hp]
  rw [hmap, hkeys, sum_filter_lengths categoryNames ds (by decide) htot]

/-- C3: `categorize_transactions` on a fresh categorizer partitions its
input completely: the returned mapping has exactly the 19 declared
category names as keys (in declaration order, empty buckets kept), the
bucket sizes sum to the input length, and each bucket holds exactly the
classified rows of its category, in input order. -/
theorem categorize_partition_complete (X : List Tx) (s : List (String × List TxData))
    (h : categorize_transactions initialCategories X = some s) :
    s.map Prod.fst = categoryNames ∧
      (s.map (fun p => p.2.length)).sum = X.length ∧
      ∀ p ∈ s, p.2 = (X.filterMap categorize_transaction).filter
        (fun x => x.category == some p.1) := by
  have hA := categorize_transactions_eq X initialCategories s h
  have hinit : ∀ q ∈ initialCategories, q.2 = ([] : List TxData) := by decide
  have hbuckets : ∀ p ∈ s, p.2 = (X.filterMap categorize_transaction).filter
      (fun x => x.category == some p.1) := by
    intro p hp
    rw [hA] at hp
    rcases List.mem_map.mp hp with ⟨q, hq, hpq⟩
    rw [← hpq]
    dsimp only
    rw [hinit q hq]
    rfl
  have hkeys : s.map Prod.fst = categoryNames := by
    rw [hA, List.map_map]
    have : (Prod.fst ∘ fun p : String × List TxData =>
        (p.1, p.2 ++ (X.filterMap categorize_transaction).filter
          (fun x => x.category == some p.1))) = Prod.fst := rfl
    rw [this]
    decide
  refine ⟨hkeys, ?_, hbuckets⟩
  rw [buckets_sum s (X.filterMap categorize_transaction) hbuckets hkeys ?_]
  · exact length_filterMap_isSome _ X (categorize_transactions_allSome X initialCategories s h)
  · intro x hx
    rcases List.mem_filterMap.mp hx with ⟨r, _, hr⟩
    exact classify_category_mem r x hr

def c3tx : Tx := ⟨"R3", 0, "nan", 0, 0, "", "", "", "m", "w"⟩

def c3state : List (String × List TxData) :=
  (categorize_transactions initialCategories [c3tx]).getD []

theorem categorize_partition_complete_witness :
    c3state.map Prod.fst = categoryNames ∧
      (c3state.map (fun p => p.2.length)).sum = 1 ∧
      ∀ p ∈ c3state, p.2 = ([c3tx].filterMap categorize_transaction).filter
        (fun x => x.category == some p.1) :=
  categorize_partition_complete [c3tx] c3state (by decide)

/-- C10: bucket state persists on the categorizer instance across two
`categorize_transactions` calls: the second run's buckets hold the
classified rows of both inputs (sizes summing to the two lengths), while
`categorize_transactions_efficiently` is by construction a run on a fresh
instance. -/
theorem bucket_state_persists (X Y : List Tx) (s1 s2 : List (String × List TxData))
    (h1 : categorize_transactions initialCategories X = some s1)
    (h2 : categorize_transactions s1 Y = some s2) :
    (s2.map (fun p => p.2.length)).sum = X.length + Y.length ∧
      (∀ p ∈ s2, p.2 = ((X ++ Y).filterMap categorize_transaction).filter
        (fun x => x.category == some p.1)) ∧
      categorize_transactions_efficiently X = categorize_transactions initialCategories X ∧
      categorize_transactions_efficiently Y = categorize_transactions initialCategories Y := by
  have hA1 := categorize_transactions_eq X initialCategories s1 h1
  have hA2 := categorize_transactions_eq Y s1 s2 h2
  have hinit : ∀ q ∈ initialCategories, q.2 = ([] : List TxData) := by decide
  have hbuckets : ∀ p ∈ s2, p.2 = ((X ++ Y).filterMap categorize_transaction).filter
      (fun x => x.category == some p.1) := by
    intro p hp
    rw [hA2] at hp
    rcases List.mem_map.mp hp with ⟨q1, hq1, hpq⟩
    rw [hA1] at hq1
    rcases List.mem_map.mp hq1 with ⟨q0, hq0, hq01⟩
    rw [← hpq, ← hq01]
    dsimp only
    rw [hinit q0 hq0, List.filterMap_append, List.filter_append]
    rfl
  have hkeys2 : s2.map Prod.fst = categoryNames := by
    rw [hA2, List.map_map, hA1, List.map_map]
    have : ((Prod.fst ∘ fun p : String × List TxData =>
        (p.1, p.2 ++ (Y.filterMap categorize_transaction).filter
          (fun x => x.category == some p.1))) ∘ fun p : String × List TxData =>
        (p.1, p.2 ++ (X.filterMap categorize_transaction).filter
          (fun x => x.category == some p.1))) = Prod.fst := rfl
    rw [this]
    decide
  have hallXY : ∀ r ∈ X ++ Y, (categorize_transaction r).isSome := by
    intro r hr
    rcases List.mem_append.mp hr with h | h
    · exact categorize_transactions_allSome X initialCategories s1 h1 r h
    · exact categorize_transactions_allSome Y s1 s2 h2 r h
  refine ⟨?_, hbuckets, rfl, rfl⟩
  rw [buckets_sum s2 ((X ++ Y).filterMap categorize_transaction) hbuckets hkeys2 ?_]
  · rw [length_filterMap_isSome _ (X ++ Y) hallXY, List.length_append]
  · intro x hx
    rcases List.mem_filterMap.mp hx with ⟨r, _, hr⟩
    exact classify_category_mem r x hr

def c10x : Tx := ⟨"RA", 0, "deposit of 100", 0, 0, "Agent", "", "", "m", "w"⟩

def c10y : Tx := ⟨"RB", 0, "pay bill to K", 0, 0, "K", "", "", "m", "w"⟩

def c10s1 : List (String × List TxData) :=
  (categorize_transactions initialCategories [c10x]).getD []

def c10s2 : List (String × List TxData) :=
  (categorize_transactions c10s1 [c10y]).getD []

theorem bucket_state_persists_witness :
    (c10s2.map (fun p => p.2.length)).sum = 2 ∧
      (∀ p ∈ c10s2, p.2 = (([c10x] ++ [c10y]).filterMap categorize_transaction).filter
        (fun x => x.category == some p.1)) ∧
      categorize_transactions_efficiently [c10x] =
        categorize_transactions initialCategories [c10x] ∧
      categorize_transactions_efficiently [c10y] =
        categorize_transactions initialCategories [c10y] :=
  bucket_state_persists [c10x] [c10y] c10s1 c10s2 (by decide) (by decide)

/-! ## Claim C8: `split_details` -/

theorem trySep_nil : trySep ([] : List Char) = none := rfl

theorem sepFrom_succ (bnd : Bool) (c : Char) (cs : List Char) (i : Nat) :
    sepFrom bnd (c :: cs) (i + 1) = sepFrom c.isWhitespace cs i := by
  unfold sepFrom
  cases i with
  | zero => simp
  | succ n => simp

theorem scanDetails_none (cs : List Char) : ∀ bnd seg,
    (∀ i, sepFrom bnd cs i = false) → scanDetails seg bnd cs = none := by
  induction cs with
  | nil =>
    intro bnd seg _
    rfl
  | cons c cs ih =>
    intro bnd seg h
    have h0' : (bnd && (trySep (c :: cs)).isSome) = false := h 0
    have hhead : (if bnd then trySep (c :: cs) else none) = none := by
      cases hbnd : bnd
      · rfl
      · rw [hbnd] at h0'
        simp at h0'
        show trySep (c :: cs) = none
        rcases htry : trySep (c :: cs) with _ | g2
        · rfl
        · rw [htry] at h0'
          simp at h0'
    have htail : ∀ b, b = c.isWhitespace → ∀ i, sepFrom b cs i = false := by
      intro b hb i
      rw [hb, ← sepFrom_succ bnd c cs i]
      exact h (i + 1)
    simp only [scanDetails]
    rw [hhead]
    by_cases hc : c = '\n'
    · rw [if_pos hc]
      apply ih
      intro i
      have := htail c.isWhitespace rfl i
      rw [hc] at this
      exact this
    · rw [if_neg hc]
      exact ih c.isWhitespace (c :: seg) (htail c.isWhitespace rfl)

theorem scanDetails_found (cs : List Char) : ∀ bnd seg i, '\n' ∉ cs →
    sepFrom bnd cs i = true → (∀ k, k < i → sepFrom bnd cs k = false) →
    scanDetails seg bnd cs =
      some (seg.reverse ++ cs.take i, (trySep (cs.drop i)).getD []) := by
  induction cs with
  | nil =>
    intro bnd seg i _ hi _
    exfalso
    have hf : sepFrom bnd [] i = false := by
      unfold sepFrom
      simp [List.drop_nil, trySep_nil]
    rw [hi] at hf
    cases hf
  | cons c cs ih =>
    intro bnd seg i hnl hi hmin
    cases i with
    | zero =>
      have h0 : (bnd && (trySep (c :: cs)).isSome) = true := hi
      rcases Bool.and_eq_true_iff.mp h0 with ⟨hb, hs⟩
      rcases Option.isSome_iff_exists.mp hs with ⟨g2, hg2⟩
      simp only [scanDetails]
      rw [hb, hg2]
      simp [hg2]
    | succ n =>
      have h0' : (bnd && (trySep (c :: cs)).isSome) = false := hmin 0 (Nat.succ_pos n)
      have hhead : (if bnd then trySep (c :: cs) else none) = none := by
        cases hbnd : bnd
        · rfl
        · rw [hbnd] at h0'
          simp at h0'
          show trySep (c :: cs) = none
          rcases htry : trySep (c :: cs) with _ | g2
          · rfl
          · rw [htry] at h0'
            simp at h0'
      have hc : ¬ c = '\n' := fun he => hnl (he ▸ List.mem_cons_self c cs)
      have hnl' : '\n' ∉ cs := fun hm => hnl (List.mem_cons_of_mem c hm)
      have hi' : sepFrom c.isWhitespace cs n = true := by
        rw [← sepFrom_succ bnd]
        exact hi
      have hmin' : ∀ k, k < n → sepFrom c.isWhitespace cs k = false := by
        intro k hk
        rw [← sepFrom_succ bnd]
        exact hmin (k + 1) (Nat.succ_lt_succ hk)
      simp only [scanDetails]
      rw [hhead, if_neg hc, ih c.isWhitespace (c :: seg) n hnl' hi' hmin']
      simp [List.append_assoc]

/-- The details text splits at the FIRST separator, not the last: the
spec-modelled last-separator split disagrees with the source on
"A - B - C". -/
theorem split_details_first_not_last_cex :
    split_details "A - B - C" = ("A", "B - C") ∧
      splitDetailsLastSpec "A - B - C" = ("A - B", "C") ∧
      (("A", "B - C") : String × String) ≠ ("A - B", "C") := by
  exact ⟨by decide, by decide, by decide⟩

/-- C8 amended: on newline-free input, `split_details` splits at the FIRST
occurrence of the standalone-hyphen separator (boundary before: start of
string or whitespace; then optional spaces, a hyphen, optional spaces, one
whitespace and a following non-space), returning the text before and after
it, both trimmed; when no separator exists it returns (details, details). -/
theorem split_details_first_separator (s : String) (hnl : '\n' ∉ s.toList) :
    ((∀ i, sepFrom true s.toList i = false) → split_details s = (s, s)) ∧
      ∀ i, sepFrom true s.toList i = true →
        (∀ k, k < i → sepFrom true s.toList k = false) →
        split_details s = (pyStrip (String.mk (s.toList.take i)),
          pyStrip (String.mk ((trySep (s.toList.drop i)).getD []))) := by
  constructor
  · intro hno
    unfold split_details
    rw [scanDetails_none s.toList true [] hno]
  · intro i hi hmin
    unfold split_details
    rw [scanDetails_found s.toList true [] i hnl hi hmin]
    simp

theorem split_details_first_separator_witness :
    sepFrom true ("A - B - C".toList) 2 = true ∧
      split_details "A - B - C" = ("A", "B - C") := by
  refine ⟨by decide, ?_⟩
  have h := (split_details_first_separator "A - B - C" (by decide)).2 2 (by decide) (by decide)
  rw [h]
  decide

/-! ## Claim C9: the category summary -/

theorem pyNunique_eq_card {α : Type} [DecidableEq α] (l : List α) :
    pyNunique l = l.toFinset.card := by
  rw [pyNunique, List.card_toFinset]

theorem foldl_append_filter {α β : Type} (g : α → β) (q : α → Prop) [DecidablePred q]
    (data : List α) : ∀ acc : List β,
    data.foldl (fun summary p => if q p then summary ++ [g p] else summary) acc =
      acc ++ (data.filter (fun p => decide (q p))).map g := by
  induction data with
  | nil =>
    intro acc
    simp
  | cons a t ih =>
    intro acc
    simp only [List.foldl_cons, List.filter_cons]
    by_cases hq : q a
    · rw [if_pos hq, if_pos (by simpa using hq), ih]
      simp
    · rw [if_neg hq, if_neg (by simpa using hq), ih]

theorem foldl_min_le (l : List Nat) : ∀ a, l.foldl min a ≤ a ∧ ∀ x ∈ l, l.foldl min a ≤ x := by
  induction l with
  | nil =>
    intro a
    exact ⟨le_refl a, fun x hx => absurd hx (List.not_mem_nil x)⟩
  | cons c t ih =>
    intro a
    have h := ih (min a c)
    rw [List.foldl_cons]
    constructor
    · exact le_trans h.1 (min_le_left a c)
    · intro x hx
      rcases List.mem_cons.mp hx with h1 | h1
      · rw [h1]
        exact le_trans h.1 (min_le_right a c)
      · exact h.2 x h1

theorem foldl_min_mem (l : List Nat) : ∀ a, l.foldl min a = a ∨ l.foldl min a ∈ l := by
  induction l with
  | nil =>
    intro a
    exact Or.inl rfl
  | cons c t ih =>
    intro a
    rw [List.foldl_cons]
    rcases ih (min a c) with h | h
    · rw [h]
      rcases Nat.le_total a c with hac | hac
      · rw [min_eq_left hac]
        exact Or.inl rfl
      · rw [min_eq_right hac]
        exact Or.inr (List.mem_cons_self c t)
    · exact Or.inr (List.mem_cons_of_mem c h)

theorem foldl_max_le (l : List Nat) : ∀ a, a ≤ l.foldl max a ∧ ∀ x ∈ l, x ≤ l.foldl max a := by
  induction l with
  | nil =>
    intro a
    exact ⟨le_refl a, fun x hx => absurd hx (List.not_mem_nil x)⟩
  | cons c t ih =>
    intro a
    have h := ih (max a c)
    rw [List.foldl_cons]
    constructor
    · exact le_trans (le_max_left a c) h.1
    · intro x hx
      rcases List.mem_cons.mp hx with h1 | h1
      · rw [h1]
        exact le_trans (le_max_right a c) h.1
      · exact h.2 x h1

theorem foldl_max_mem (l : List Nat) : ∀ a, l.foldl max a = a ∨ l.foldl max a ∈ l := by
  induction l with
  | nil =>
    intro a
    exact Or.inl rfl
  | cons c t ih =>
    intro a
    rw [List.foldl_cons]
    rcases ih (max a c) with h | h
    · rw [h]
      rcases Nat.le_total a c with hac | hac
      · rw [max_eq_right hac]
        exact Or.inr (List.mem_cons_self c t)
      · rw [max_eq_left hac]
        exact Or.inl rfl
    · exact Or.inr (List.mem_cons_of_mem c h)

theorem minD_spec (l : List Nat) (h : l ≠ []) :
    (l.min?.getD 0 ∈ l) ∧ ∀ x ∈ l, l.min?.getD 0 ≤ x := by
  cases l with
  | nil => exact absurd rfl h
  | cons a t =>
    constructor
    · show t.foldl min a ∈ a :: t
      rcases foldl_min_mem t a with h1 | h1
      · rw [h1]
        exact List.mem_cons_self a t
      · exact List.mem_cons_of_mem a h1
    · intro x hx
      show t.foldl min a ≤ x
      rcases List.mem_cons.mp hx with h1 | h1
      · exact h1 ▸ (foldl_min_le t a).1
      · exact (foldl_min_le t a).2 x h1

theorem maxD_spec (l : List Nat) (h : l ≠ []) :
    (l.max?.getD 0 ∈ l) ∧ ∀ x ∈ l, x ≤ l.max?.getD 0 := by
  cases l with
  | nil => exact absurd rfl h
  | cons a t =>
    constructor
    · show t.foldl max a ∈ a :: t
      rcases foldl_max_mem t a with h1 | h1
      · rw [h1]
        exact List.mem_cons_self a t
      · exact List.mem_cons_of_mem a h1
    · intro x hx
      show x ≤ t.foldl max a
      rcases List.mem_cons.mp hx with h1 | h1
      · exact h1 ▸ (foldl_max_le t a).1
      · exact (foldl_max_le t a).2 x h1

/-- C9: the summary holds exactly one row per non-empty bucket, in bucket
order and omitting empty buckets; each row carries the distinct-receipt
count, the withdrawn and paid-in sums, the distinct-processed-entity
count, and the min-to-max timestamp range of its bucket (the endpoints are
attained in the bucket and bound every timestamp of it). -/
theorem get_category_summary_spec (data : List (String × List TxData)) :
    get_category_summary data =
      (data.filter (fun p => decide (p.2.length > 0))).map
        (fun p =>
          { category := p.1,
            transaction_count := (p.2.map (fun d => d.receipt_no)).toFinset.card,
            total_withdrawn := (p.2.map (fun d => d.withdrawn)).sum,
            total_paid_in := (p.2.map (fun d => d.paid_in)).sum,
            unique_entities := (p.2.map (fun d => d.processed_entity)).toFinset.card,
            date_min := ((p.2.map (fun d => d.date_time)).min?).getD 0,
            date_max := ((p.2.map (fun d => d.date_time)).max?).getD 0 }) ∧
      ∀ p ∈ data, p.2 ≠ [] →
        (((p.2.map (fun x => x.date_time)).min?).getD 0 ∈ p.2.map (fun x => x.date_time)) ∧
        (((p.2.map (fun x => x.date_time)).max?).getD 0 ∈ p.2.map (fun x => x.date_time)) ∧
        ∀ d ∈ p.2, ((p.2.map (fun x => x.date_time)).min?).getD 0 ≤ d.date_time ∧
          d.date_time ≤ ((p.2.map (fun x => x.date_time)).max?).getD 0 := by
  constructor
  · have h := foldl_append_filter summaryRow (fun p : String × List TxData => p.2.length > 0)
      data []
    refine Eq.trans h ?_
    rw [List.nil_append]
    apply List.map_congr_left
    intro p _
    rw [summaryRow, pyNunique_eq_card, pyNunique_eq_card]
  · intro p _ hne
    have hmapne : p.2.map (fun x => x.date_time) ≠ [] := by
      intro he
      exact hne (List.map_eq_nil_iff.mp he)
    refine ⟨(minD_spec _ hmapne).1, (maxD_spec _ hmapne).1, ?_⟩
    intro d hd
    have hmem : d.date_time ∈ p.2.map (fun x => x.date_time) :=
      List.mem_map_of_mem (fun x => x.date_time) hd
    exact ⟨(minD_spec _ hmapne).2 _ hmem, (maxD_spec _ hmapne).2 _ hmem⟩

def c9data : List (String × List TxData) :=
  (categorize_transactions initialCategories
    [⟨"R9", 5, "deposit of 7", 3, 0, "A", "", "", "m", "w"⟩]).getD []

theorem get_category_summary_spec_witness :
    get_category_summary c9data =
      (c9data.filter (fun p => decide (p.2.length > 0))).map
        (fun p =>
          { category := p.1,
            transaction_count := (p.2.map (fun d => d.receipt_no)).toFinset.card,
            total_withdrawn := (p.2.map (fun d => d.withdrawn)).sum,
            total_paid_in := (p.2.map (fun d => d.paid_in)).sum,
            unique_entities := (p.2.map (fun d => d.processed_entity)).toFinset.card,
            date_min := ((p.2.map (fun d => d.date_time)).min?).getD 0,
            date_max := ((p.2.map (fun d => d.date_time)).max?).getD 0 }) ∧
      (get_category_summary c9data).length = 1 :=
  ⟨(get_category_summary_spec c9data).1, by decide⟩
